import Mathlib

/-!
# Verification of the VeriCred backend core (src/main.py, src/schemas.py)

A shallow embedding of the credential-request lifecycle of the VeriCred
backend: the corporate-email heuristic, token resolution, review
submission (token consumption), candidate approval, and the public
profile aggregation.  The MongoDB document store is modelled as explicit
lists of records (`DB`); each FastAPI handler becomes a pure function
from the incoming data and the store to a result and the updated store.
Python strings are `String`; where character-level reasoning is needed
(the email verifier) they are viewed as `List Char`.  Timestamps are
`Nat` (the code only ever stores them; ISO-8601 order corresponds to
numeric order).  Raised `HTTPException`s become `Except` errors; a
handler that raises performs no store mutation, which the embedding
reflects by returning the store unchanged alongside the error.
-/

namespace VeriCred

/-- Python `str.split(sep)` for a single-character separator, on the
character list of the string.  Like Python's `split`, the result is
never empty: `"".split("@") == [""]`. -/
def pySplit (sep : Char) : List Char → List (List Char)
  | [] => [[]]
  | c :: cs =>
    let rest := pySplit sep cs
    if c = sep then [] :: rest
    else (c :: rest.headD []) :: rest.tail

/-- The denylist of free-email domains embedded in
`corporate_email_verified` (src/main.py line 43). -/
def free_domains : List (List Char) :=
  ["gmail.com", "yahoo.com", "hotmail.com", "outlook.com", "icloud.com",
   "proton.me", "protonmail.com"].map String.toList

/-- The classification applied to the extracted (already lowercased)
domain in `corporate_email_verified` (src/main.py line 44):
`domain not in free_domains and "." in domain and len(domain.split(".")) >= 2`. -/
def is_corporate_domain (domain : List Char) : Bool :=
  decide (domain ∉ free_domains) && decide ('.' ∈ domain)
    && decide (2 ≤ (pySplit '.' domain).length)

/-- `corporate_email_verified(email)` (src/main.py lines 40-44):
`domain = email.split("@")[-1].lower()` followed by the denylist / dot
checks.  Python's `split` never returns an empty list, so indexing with
`[-1]` is total; `getLastD` mirrors that. -/
def corporate_email_verified (email : String) : Bool :=
  is_corporate_domain (((pySplit '@' email.toList).getLastD []).map Char.toLower)

/-- An `HTTPException(status_code, detail)` raised by a handler. -/
structure HTTPException where
  status : Nat
  detail : String
deriving DecidableEq, Repr

/-- A `candidate` collection document (schemas.Candidate plus its
Mongo `_id`, already in string form as `oid_str` produces it). -/
structure Candidate where
  id : String
  name : String
  email : String
  bio : Option String := none
  photo_url : Option String := none
  slug : String
deriving DecidableEq, Repr

/-- A `job` collection document (schemas.Job plus its `_id`). -/
structure Job where
  id : String
  candidate_id : String
  company : String
  title : String
  start_date : Option String := none
  end_date : Option String := none
deriving DecidableEq, Repr

/-- A `reviewrequest` collection document (schemas.ReviewRequest plus
its `_id` and the `used_at` field that `submit_review` `$set`s).
`expires_at` is the expiry timestamp (ISO string in the code, modelled
as `Nat`; the code never reads it after storing it). -/
structure ReviewRequest where
  id : String
  candidate_id : String
  job_id : String
  reviewer_name : Option String := none
  reviewer_email : String
  token : String
  status : String
  expires_at : Nat
  used_at : Option Nat := none
deriving DecidableEq, Repr

/-- A `review` collection document (schemas.Review plus its `_id` and
the `updated_at` field that `approve_review` `$set`s).  `skills` is the
Python dict `skill_name -> rating`, an ordered association list. -/
structure Review where
  id : String
  candidate_id : String
  job_id : String
  reviewer_name : String
  reviewer_title : Option String := none
  reviewer_company : Option String := none
  reviewer_email : String
  overall : Int
  skills : List (String × Int)
  public_text : String
  verified_corporate_email : Bool
  verification_checked : Bool
  approved_by_candidate : Bool
  updated_at : Option Nat := none
deriving DecidableEq, Repr

/-- The document store: one list per collection touched by the core
endpoints.  `find_one` on a filter is `List.find?` (first match). -/
structure DB where
  candidates : List Candidate
  jobs : List Job
  reviewrequests : List ReviewRequest
  reviews : List Review
deriving DecidableEq, Repr

/-- The `SubmitReview` request body (src/main.py lines 92-100).  It has
no candidate or job field; pydantic constrains only `overall` with
`ge=1, le=5` — the `skills` dict values carry no constraint. -/
structure SubmitReview where
  reviewer_name : String
  reviewer_title : Option String := none
  reviewer_company : Option String := none
  reviewer_email : String
  overall : Int
  skills : List (String × Int)
  public_text : String
  confirm_manager : Bool
deriving DecidableEq, Repr

/-- The pydantic validation FastAPI applies to a `SubmitReview` body
before the handler runs: only `overall: int = Field(..., ge=1, le=5)`
is range-checked (src/main.py line 97); `skills: Dict[str, int]`
(line 98) has no per-value bound. -/
def SubmitReview.validates (p : SubmitReview) : Bool :=
  decide (1 ≤ p.overall) && decide (p.overall ≤ 5)

/-- The `ReviewTokenInfo` response of `get_request_by_token`
(src/main.py lines 85-90). -/
structure ReviewTokenInfo where
  token : String
  candidate_name : String
  candidate_slug : String
  company : String
  title : String
deriving DecidableEq, Repr

/-- `GET /api/review-requests/{token}` (src/main.py lines 216-229):
`find_one({"token": token, "status": "pending"})`, 404 when absent,
otherwise join the job and candidate for display.  No expiry
comparison appears anywhere in the handler.  The code indexes
`job["company"]` / `cand["name"]` without a None check, so a dangling
reference would raise; that crash is modelled as a 500. -/
def get_request_by_token (token : String) (db : DB) :
    Except HTTPException ReviewTokenInfo :=
  match db.reviewrequests.find? (fun r => r.token == token && r.status == "pending") with
  | none => .error ⟨404, "Invalid or expired token"⟩
  | some req =>
    match db.jobs.find? (fun j => j.id == req.job_id),
          db.candidates.find? (fun c => c.id == req.candidate_id) with
    | some job, some cand =>
        .ok ⟨token, cand.name, cand.slug, job.company, job.title⟩
    | _, _ => .error ⟨500, "Internal Server Error"⟩

/-- The validation phase of `submit_review` (src/main.py lines 235-239):
`find_one({"token": token})`, 404 when the request is absent or its
status is not "pending", 400 when `confirm_manager` is false.  Nothing
is written during this phase; no expiry comparison appears. -/
def consume_check (token : String) (payload : SubmitReview) (db : DB) :
    Except HTTPException ReviewRequest :=
  match db.reviewrequests.find? (fun r => r.token == token) with
  | none => .error ⟨404, "Invalid or used token"⟩
  | some req =>
    if req.status ≠ "pending" then .error ⟨404, "Invalid or used token"⟩
    else if payload.confirm_manager = false then
      .error ⟨400, "You must confirm you were the manager"⟩
    else .ok req

/-- The `ReviewSchema(...)` document built by `submit_review`
(src/main.py lines 241-256): candidate and job ids are copied from the
matched request, reviewer fields and content from the payload, and the
flags are stamped `verified_corporate_email = verifier(email)`,
`verification_checked = True`, `approved_by_candidate = False`.
`fid` is the fresh `_id` Mongo assigns on insert. -/
def mkReview (fid : String) (req : ReviewRequest) (p : SubmitReview) : Review :=
  { id := fid
    candidate_id := req.candidate_id
    job_id := req.job_id
    reviewer_name := p.reviewer_name
    reviewer_title := p.reviewer_title
    reviewer_company := p.reviewer_company
    reviewer_email := p.reviewer_email
    overall := p.overall
    skills := p.skills
    public_text := p.public_text
    verified_corporate_email := corporate_email_verified p.reviewer_email
    verification_checked := true
    approved_by_candidate := false
    updated_at := none }

/-- The write phase of `submit_review` (src/main.py lines 257-263):
insert the review, then `update_one({"_id": req["_id"]}, {"$set":
{"status": "submitted", "used_at": now}})` — the update is keyed on the
id alone, with no condition on the current status — then re-fetch the
inserted review by its id and return it (`doc_to_strid(None)` would
return `None`, hence the `Option`). -/
def consume_commit (now : Nat) (fid : String) (req : ReviewRequest)
    (p : SubmitReview) (db : DB) : Option Review × DB :=
  let rev := mkReview fid req p
  let db1 : DB := { db with reviews := db.reviews ++ [rev] }
  let db2 : DB := { db1 with
    reviewrequests := db1.reviewrequests.map fun r =>
      if r.id == req.id then { r with status := "submitted", used_at := some now } else r }
  (db2.reviews.find? (fun r => r.id == fid), db2)

/-- `POST /api/reviews/{token}` (src/main.py lines 233-263): validate,
then commit.  An exception leaves the store untouched. -/
def submit_review (now : Nat) (fid : String) (token : String)
    (payload : SubmitReview) (db : DB) :
    Except HTTPException (Option Review) × DB :=
  match consume_check token payload db with
  | .error e => (.error e, db)
  | .ok req =>
      let (rev, db2) := consume_commit now fid req payload db
      (.ok rev, db2)

/-- `POST /api/reviews/{token}` including the pydantic validation layer
FastAPI runs on the body before the handler (422 on failure). -/
def post_review (now : Nat) (fid : String) (token : String)
    (payload : SubmitReview) (db : DB) :
    Except HTTPException (Option Review) × DB :=
  if payload.validates = false then (.error ⟨422, "Unprocessable Entity"⟩, db)
  else submit_review now fid token payload db

/-- The `update_one({"_id": ...}, {"$set": {"approved_by_candidate":
approve, "updated_at": now}})` mutation of `approve_review`
(src/main.py line 271), applied to the store. -/
def approve_update (now : Nat) (review_id : String) (approve : Bool) (db : DB) : DB :=
  { db with
    reviews := db.reviews.map fun r =>
      if r.id == review_id then
        { r with approved_by_candidate := approve, updated_at := some now } else r }

/-- `POST /api/reviews/{review_id}/approve` (src/main.py lines 266-273):
404 when the review is absent, otherwise `$set` the flag (and an
`updated_at` stamp) on the document with that id, re-fetch it and
return it. -/
def approve_review (now : Nat) (review_id : String) (approve : Bool) (db : DB) :
    Except HTTPException (Option Review) × DB :=
  match db.reviews.find? (fun r => r.id == review_id) with
  | none => (.error ⟨404, "Review not found"⟩, db)
  | some _ =>
    ((approve_update now review_id approve db).reviews.find?
        (fun r => r.id == review_id) |> .ok,
     approve_update now review_id approve db)

/-- A review as it appears in the profile response: the review document
with the `job` field attached (`jobs_by_id.get(r["job_id"]) or {}`,
src/main.py line 291 — `none` stands for the empty object `{}`). -/
structure ProfileReview where
  review : Review
  job : Option Job
deriving DecidableEq, Repr

/-- The profile response triple (src/main.py lines 292-296). -/
structure Profile where
  candidate : Candidate
  jobs : List Job
  reviews : List ProfileReview
deriving DecidableEq, Repr

/-- Lookup in the Python dict `jobs_by_id = {oid_str(j["_id"]): j for j
in jobs}` (src/main.py line 289): a comprehension keeps the last entry
for a duplicate key, so the lookup scans from the end. -/
def jobs_by_id_get (jobs : List Job) (k : String) : Option Job :=
  jobs.reverse.find? (fun j => j.id == k)

/-- `GET /api/profile/{slug}` (src/main.py lines 277-296): resolve the
candidate by slug (404 when unknown), fetch that candidate's jobs and
its reviews with `approved_by_candidate == True`, and attach to each
review its job by id, the empty object when the id matches no job. -/
def public_profile (slug : String) (db : DB) : Except HTTPException Profile :=
  match db.candidates.find? (fun c => c.slug == slug) with
  | none => .error ⟨404, "Profile not found"⟩
  | some cand =>
    let jobs := db.jobs.filter (fun j => j.candidate_id == cand.id)
    let reviews := db.reviews.filter
      (fun r => r.candidate_id == cand.id && r.approved_by_candidate)
    .ok { candidate := cand
          jobs := jobs
          reviews := reviews.map fun r => ⟨r, jobs_by_id_get jobs r.job_id⟩ }

/-! ## Concrete fixtures used to instantiate the theorems -/

/-- A candidate on file. -/
def exCand : Candidate :=
  { id := "c1", name := "Alice", email := "alice@example.com", slug := "alice" }

/-- A job owned by `exCand`. -/
def exJob : Job :=
  { id := "j1", candidate_id := "c1", company := "Acme", title := "Engineer" }

/-- A pending review request for (`exCand`, `exJob`) with token `"t"`,
expiring at time 5. -/
def exReq : ReviewRequest :=
  { id := "rr1", candidate_id := "c1", job_id := "j1",
    reviewer_email := "bob@acme-corp.com", token := "t",
    status := "pending", expires_at := 5 }

/-- A store holding the candidate, the job and the pending request. -/
def exDB : DB :=
  { candidates := [exCand], jobs := [exJob], reviewrequests := [exReq], reviews := [] }

/-- A well-formed submission with the manager confirmation set. -/
def okPayload : SubmitReview :=
  { reviewer_name := "Bob", reviewer_email := "bob@acme-corp.com",
    overall := 4, skills := [("leadership", 5)], public_text := "Great",
    confirm_manager := true }

/-- `okPayload` with the manager-confirmation flag cleared. -/
def badPayload : SubmitReview := { okPayload with confirm_manager := false }

/-- `okPayload` with a skills rating outside `[1,5]`. -/
def badSkillsPayload : SubmitReview := { okPayload with skills := [("teamwork", 6)] }

/-- An existing review document for `exCand` / `exJob`. -/
def exReview : Review :=
  { id := "rv1", candidate_id := "c1", job_id := "j1", reviewer_name := "Bob",
    reviewer_email := "bob@acme-corp.com", overall := 4,
    skills := [("leadership", 5)], public_text := "Great",
    verified_corporate_email := true, verification_checked := true,
    approved_by_candidate := false }

/-- A store holding one review, for the approval theorems. -/
def exDBrev : DB := { exDB with reviews := [exReview] }

/-- An approved review whose `job_id` matches none of the candidate's
jobs (a dangling reference). -/
def exReviewDangling : Review :=
  { exReview with id := "rv2", job_id := "jmissing", approved_by_candidate := true }

/-- A store with one unapproved review and one approved review with a
dangling job reference, for the profile theorems. -/
def exDBprof : DB := { exDB with reviews := [exReview, exReviewDangling] }

/-- The review document produced by consuming token `"t"` of `exDB`
with `okPayload` under fresh id `"r1"`. -/
def consumedRes : Option Review := some (mkReview "r1" exReq okPayload)

/-- The store after that consumption. -/
def consumedDB : DB := (submit_review 100 "r1" "t" okPayload exDB).2

/-! ## Helper lemmas -/

/-- `find?` over a mapped list when the map does not change the tested
field. -/
theorem find?_map_invariant {α : Type} (f : α → α) (p : α → Bool)
    (hp : ∀ a, p (f a) = p a) (l : List α) :
    (l.map f).find? p = (l.find? p).map f := by
  induction l with
  | nil => rfl
  | cons a l ih =>
    by_cases h : p a = true
    · rw [List.map_cons, List.find?_cons_of_pos _ (by rw [hp a]; exact h),
        List.find?_cons_of_pos _ h, Option.map_some']
    · rw [List.map_cons, List.find?_cons_of_neg _ (by rw [hp a]; simpa using h),
        List.find?_cons_of_neg _ (by simpa using h), ih]

/-- `find?` skips a prefix on which the predicate is everywhere false. -/
theorem find?_append_false {α : Type} (p : α → Bool) (l1 l2 : List α)
    (h : ∀ a ∈ l1, p a = false) : (l1 ++ l2).find? p = l2.find? p := by
  induction l1 with
  | nil => rfl
  | cons a l ih =>
    rw [List.cons_append, List.find?_cons_of_neg _ (by simp [h a (List.mem_cons_self a l)])]
    exact ih fun a ha => h a (List.mem_cons_of_mem _ ha)

/-- Splitting a list that does not contain the separator yields the
single piece `[l]`, like Python's `split`. -/
theorem pySplit_not_mem {sep : Char} : ∀ {l : List Char}, sep ∉ l → pySplit sep l = [l]
  | [], _ => rfl
  | c :: cs, h => by
    have hc : ¬(c = sep) := fun e => h (e ▸ List.mem_cons_self c cs)
    have hcs : pySplit sep cs = [cs] :=
      pySplit_not_mem fun m => h (List.mem_cons_of_mem c m)
    simp only [pySplit, hcs, if_neg hc, List.headD, List.tail]

/-- Inversion of a successful `consume_check`: the token matched a
stored request, its status was `"pending"`, and the manager flag was
set. -/
theorem consume_check_ok (token : String) (p : SubmitReview) (db : DB)
    (req : ReviewRequest) (h : consume_check token p db = .ok req) :
    db.reviewrequests.find? (fun r => r.token == token) = some req ∧
    req.status = "pending" ∧ p.confirm_manager = true := by
  unfold consume_check at h
  split at h
  · simp at h
  · rename_i r hf
    split at h
    · simp at h
    · rename_i hs
      split at h
      · simp at h
      · rename_i hm
        have hr : r = req := by simpa using h
        subst hr
        exact ⟨hf, not_not.mp hs, by simpa using hm⟩

/-- Inversion of a successful `submit_review`: the check passed for
some request, the built review was appended to the `review` collection
and re-fetched by its id, and the matched request alone was stamped
submitted; no other collection changed. -/
theorem submit_review_ok (now : Nat) (fid token : String) (p : SubmitReview)
    (db db' : DB) (res : Option Review)
    (h : submit_review now fid token p db = (.ok res, db')) :
    ∃ req, consume_check token p db = .ok req ∧
      res = (db.reviews ++ [mkReview fid req p]).find? (fun r => r.id == fid) ∧
      db'.reviews = db.reviews ++ [mkReview fid req p] ∧
      db'.reviewrequests = db.reviewrequests.map (fun r =>
        if r.id == req.id then { r with status := "submitted", used_at := some now }
        else r) ∧
      db'.candidates = db.candidates ∧ db'.jobs = db.jobs := by
  unfold submit_review at h
  cases hc : consume_check token p db with
  | error e => rw [hc] at h; simp at h
  | ok req =>
    rw [hc] at h
    simp only [consume_commit] at h
    rw [Prod.mk.injEq] at h
    obtain ⟨h1, h2⟩ := h
    subst h2
    exact ⟨req, rfl, (Except.ok.inj h1).symm, rfl, rfl, rfl, rfl⟩

/-- When the token lookup of `consume_check` finds a request whose
status is not `"pending"`, the check fails with the 404 error. -/
theorem consume_check_not_pending (token : String) (p : SubmitReview) (db : DB)
    (req : ReviewRequest)
    (hfind : db.reviewrequests.find? (fun r => r.token == token) = some req)
    (hst : req.status ≠ "pending") :
    consume_check token p db = .error ⟨404, "Invalid or used token"⟩ := by
  unfold consume_check
  split
  · rename_i hnone
    rw [hfind] at hnone
  · rename_i r heq
    rw [hfind] at heq
    obtain rfl := Option.some.inj heq
    rw [if_pos hst]

/-- When no review carries the requested id, `approve_review` raises
404 and leaves the store unchanged. -/
theorem approve_review_none (n : Nat) (rid : String) (b : Bool) (db : DB)
    (h : db.reviews.find? (fun r => r.id == rid) = none) :
    approve_review n rid b db = (.error ⟨404, "Review not found"⟩, db) := by
  unfold approve_review
  split
  · rfl
  · rename_i r heq
    rw [h] at heq
    exact Option.noConfusion heq

/-- When a review with the requested id is on file, `approve_review`
stamps the flag on it and returns the updated document and store. -/
theorem approve_review_found (n : Nat) (rid : String) (b : Bool) (db : DB) (r0 : Review)
    (h : db.reviews.find? (fun r => r.id == rid) = some r0) :
    approve_review n rid b db
      = (.ok (some { r0 with approved_by_candidate := b, updated_at := some n }),
         approve_update n rid b db) := by
  have hid : ∀ a : Review,
      (((if a.id == rid then { a with approved_by_candidate := b, updated_at := some n }
         else a) : Review).id == rid) = (a.id == rid) := by
    intro a
    by_cases ha : (a.id == rid) = true <;> simp [ha]
  have hr0 : (r0.id == rid) = true := by
    have hp := List.find?_some h
    simpa using hp
  unfold approve_review
  split
  · rename_i hnone
    rw [h] at hnone
    exact Option.noConfusion hnone
  · rename_i r heq
    unfold approve_update
    dsimp only
    rw [find?_map_invariant
      (fun r : Review =>
        if r.id == rid then { r with approved_by_candidate := b, updated_at := some n }
        else r)
      (fun r : Review => r.id == rid) hid, h, Option.map_some', if_pos hr0]

/-! ## Claim theorems -/

/-- C1: the spec requires both `resolve` and `consume` to reject a
token whose request is still stored as pending but whose expiry
timestamp lies in the past.  The code checks only the status and never
reads `expires_at`, so at current time 100 the request `exReq`
(pending, expired at time 5) is still resolved successfully and
consumed successfully — the claimed 404 does not occur. -/
theorem expired_pending_token_accepted :
    exReq.status = "pending" ∧ exReq.expires_at < 100 ∧
    get_request_by_token "t" exDB
      = .ok ⟨"t", "Alice", "alice", "Acme", "Engineer"⟩ ∧
    (submit_review 100 "r1" "t" okPayload exDB).1 = .ok consumedRes :=
  ⟨rfl, by decide, rfl, rfl⟩

/-- C3: `submit_review` is a read (`consume_check`) followed by a
write (`consume_commit`) whose update is keyed on the request id
alone, with no condition on the status still being pending.  Under the
read-read-write-write interleaving of two consume calls on token
`"t"`, both validation reads see the same pending request, both
commits then go through, and two Reviews are persisted — instead of
the exactly-one success the claim requires. -/
theorem race_two_consumes_both_succeed :
    (∀ now fid, submit_review now fid "t" okPayload exDB
      = (.ok (consume_commit now fid exReq okPayload exDB).1,
         (consume_commit now fid exReq okPayload exDB).2)) ∧
    consume_check "t" okPayload exDB = .ok exReq ∧
    (consume_commit 50 "ra" exReq okPayload exDB).1
      = some (mkReview "ra" exReq okPayload) ∧
    (consume_commit 51 "rb" exReq okPayload
        (consume_commit 50 "ra" exReq okPayload exDB).2).1
      = some (mkReview "rb" exReq okPayload) ∧
    ((consume_commit 51 "rb" exReq okPayload
        (consume_commit 50 "ra" exReq okPayload exDB).2).2).reviews.length = 2 :=
  ⟨fun _ _ => rfl, rfl, rfl, rfl, rfl⟩

/-- C6: the pydantic layer range-checks only `overall`; the `skills`
dict values carry no bound, in the request model or in the stored
schema.  A submission with skill rating 6 ∉ [1,5] passes validation,
is accepted by the handler, and is persisted with the rating 6 — no
Validation failure and no rejection occur. -/
theorem out_of_range_skill_rating_accepted :
    badSkillsPayload.skills = [("teamwork", 6)] ∧
    badSkillsPayload.validates = true ∧
    (post_review 100 "r1" "t" badSkillsPayload exDB).1
      = .ok (some (mkReview "r1" exReq badSkillsPayload)) ∧
    (mkReview "r1" exReq badSkillsPayload).skills = [("teamwork", 6)] ∧
    ((post_review 100 "r1" "t" badSkillsPayload exDB).2).reviews
      = [mkReview "r1" exReq badSkillsPayload] :=
  ⟨rfl, rfl, rfl, rfl, rfl⟩

/-- C7 counterexample: the claim says every input without an '@'
classifies as not corporate, but `"acme.com"` contains no '@' and
`corporate_email_verified` classifies it as corporate. -/
theorem no_at_dotted_string_classified_corporate :
    ('@' ∉ "acme.com".toList) ∧ corporate_email_verified "acme.com" = true :=
  ⟨by decide, by decide⟩

/-- C7 (amended): `corporate_email_verified` is a total function with
no failure case, and an input containing no '@' degrades to treating
the entire lowercased string as the domain, classified by the
denylist-and-dots rule — hence not corporate for an undotted string
such as `"localhost"`, but corporate for a dotted non-denylisted
string. -/
theorem no_at_input_treated_as_whole_domain (s : String) (h : '@' ∉ s.toList) :
    corporate_email_verified s = is_corporate_domain (s.toList.map Char.toLower) := by
  unfold corporate_email_verified
  rw [pySplit_not_mem h]
  rfl

/-- Witness for the amended C7 theorem at the spec's own example
`"localhost"`: no '@', treated as a bare domain, not corporate. -/
theorem no_at_input_treated_as_whole_domain_witness :
    ('@' ∉ "localhost".toList) ∧
    corporate_email_verified "localhost"
      = is_corporate_domain ("localhost".toList.map Char.toLower) ∧
    corporate_email_verified "localhost" = false :=
  ⟨by decide, no_at_input_treated_as_whole_domain "localhost" (by decide), by decide⟩

/-- C2: once a consume call on a token has succeeded, every later
consume call on that same token fails with the 404 "Invalid or used
token" error and returns the store unchanged — no further Review is
created — and every request record the successful call touched now
reads "submitted": status moves only forward, never back to pending. -/
theorem second_consume_on_used_token_fails (now1 now2 : Nat)
    (fid1 fid2 token : String) (p1 p2 : SubmitReview) (db db1 : DB)
    (res : Option Review)
    (h : submit_review now1 fid1 token p1 db = (.ok res, db1)) :
    submit_review now2 fid2 token p2 db1
      = (.error ⟨404, "Invalid or used token"⟩, db1) ∧
    ∀ r ∈ db1.reviewrequests, r.status = "submitted" ∨ r ∈ db.reviewrequests := by
  obtain ⟨req, hcheck, -, -, hreqs, -, -⟩ := submit_review_ok _ _ _ _ _ _ _ h
  obtain ⟨hfind, hpend, hconf⟩ := consume_check_ok _ _ _ _ hcheck
  have htok : ∀ r : ReviewRequest,
      (((if r.id == req.id then { r with status := "submitted", used_at := some now1 }
         else r) : ReviewRequest).token == token) = (r.token == token) := by
    intro r
    by_cases hid : (r.id == req.id) = true <;> simp [hid]
  have hfind1 : db1.reviewrequests.find? (fun r => r.token == token)
      = some { req with status := "submitted", used_at := some now1 } := by
    rw [hreqs, find?_map_invariant
      (fun r : ReviewRequest =>
        if r.id == req.id then { r with status := "submitted", used_at := some now1 }
        else r)
      (fun r : ReviewRequest => r.token == token) htok, hfind, Option.map_some']
    simp
  constructor
  · have hc2 : consume_check token p2 db1 = .error ⟨404, "Invalid or used token"⟩ :=
      consume_check_not_pending token p2 db1 _ hfind1 (by simp)
    unfold submit_review
    rw [hc2]
  · intro r hr
    rw [hreqs] at hr
    obtain ⟨a, ha, rfl⟩ := List.mem_map.mp hr
    by_cases hid : (a.id == req.id) = true
    · left
      simp [hid]
    · right
      simpa [hid] using ha

/-- Witness for C2: consuming token `"t"` of `exDB` succeeds once; the
second consume on the resulting store fails with 404, changes nothing,
and the token's request now reads "submitted". -/
theorem second_consume_on_used_token_fails_witness :
    submit_review 100 "r1" "t" okPayload exDB = (.ok consumedRes, consumedDB) ∧
    submit_review 101 "r2" "t" okPayload consumedDB
      = (.error ⟨404, "Invalid or used token"⟩, consumedDB) ∧
    ∀ r ∈ consumedDB.reviewrequests, r.status = "submitted" ∨ r ∈ exDB.reviewrequests :=
  ⟨rfl,
   (second_consume_on_used_token_fails 100 101 "r1" "r2" "t" okPayload okPayload
      exDB consumedDB consumedRes rfl).1,
   (second_consume_on_used_token_fails 100 101 "r1" "r2" "t" okPayload okPayload
      exDB consumedDB consumedRes rfl).2⟩

/-- C4: on a token whose stored request is pending, a submission whose
manager-confirmation flag is false is rejected with the 400 Validation
error and the store comes back unchanged: no Review is created, the
request keeps its pending status and its empty used-at stamp. -/
theorem consume_without_confirmation_rejected (now : Nat) (fid token : String)
    (p : SubmitReview) (db : DB) (req : ReviewRequest)
    (hfind : db.reviewrequests.find? (fun r => r.token == token) = some req)
    (hpend : req.status = "pending") (hconf : p.confirm_manager = false) :
    submit_review now fid token p db
      = (.error ⟨400, "You must confirm you were the manager"⟩, db) := by
  have hc : consume_check token p db
      = .error ⟨400, "You must confirm you were the manager"⟩ := by
    unfold consume_check
    split
    · rename_i hnone
      rw [hfind] at hnone
      exact Option.noConfusion hnone
    · rename_i r heq
      rw [hfind] at heq
      obtain rfl := Option.some.inj heq
      rw [if_neg (by simp [hpend]), if_pos hconf]
  unfold submit_review
  rw [hc]

/-- Witness for C4: the pending token `"t"` of `exDB` with the
unconfirmed payload is rejected with 400 and `exDB` is unchanged. -/
theorem consume_without_confirmation_rejected_witness :
    exDB.reviewrequests.find? (fun r => r.token == "t") = some exReq ∧
    exReq.status = "pending" ∧ badPayload.confirm_manager = false ∧
    submit_review 7 "r9" "t" badPayload exDB
      = (.error ⟨400, "You must confirm you were the manager"⟩, exDB) :=
  ⟨by decide, rfl, rfl,
   consume_without_confirmation_rejected 7 "r9" "t" badPayload exDB exReq
     (by decide) rfl rfl⟩

/-- C5: whenever a consume call succeeds, the review it returns and
appends to the store has `approved_by_candidate = false` and
`verification_checked = true`, and its `verified_corporate_email` is
exactly `corporate_email_verified` of the submitted reviewer email —
for every payload, whatever the email's classification. -/
theorem fresh_review_flags (now : Nat) (fid token : String) (p : SubmitReview)
    (db db' : DB) (res : Option Review)
    (h : submit_review now fid token p db = (.ok res, db'))
    (hfresh : ∀ r ∈ db.reviews, (r.id == fid) = false) :
    ∃ rev, res = some rev ∧
      rev.approved_by_candidate = false ∧
      rev.verification_checked = true ∧
      rev.verified_corporate_email = corporate_email_verified p.reviewer_email ∧
      db'.reviews = db.reviews ++ [rev] := by
  obtain ⟨req, -, hres, hrev, -, -, -⟩ := submit_review_ok _ _ _ _ _ _ _ h
  have hfound : (db.reviews ++ [mkReview fid req p]).find? (fun r => r.id == fid)
      = some (mkReview fid req p) := by
    rw [find?_append_false _ _ _ hfresh]
    simp [List.find?, mkReview]
  exact ⟨mkReview fid req p, by rw [hres, hfound], rfl, rfl, rfl, hrev⟩

/-- Witness for C5: the consume of token `"t"` of `exDB` yields a
review with the unconditional flag stamps. -/
theorem fresh_review_flags_witness :
    (∀ r ∈ exDB.reviews, (r.id == "r1") = false) ∧
    (∃ rev, consumedRes = some rev ∧
      rev.approved_by_candidate = false ∧
      rev.verification_checked = true ∧
      rev.verified_corporate_email = corporate_email_verified okPayload.reviewer_email ∧
      consumedDB.reviews = exDB.reviews ++ [rev]) :=
  ⟨by decide,
   fresh_review_flags 100 "r1" "t" okPayload exDB consumedDB consumedRes rfl (by decide)⟩

/-- C10: a review created by a successful consume takes its candidate
and job ids from the request matched by the token, for every payload —
the `SubmitReview` body carries no candidate or job field at all. -/
theorem review_ids_taken_from_request (now : Nat) (fid token : String)
    (p : SubmitReview) (db db' : DB) (res : Option Review) (req : ReviewRequest)
    (h : submit_review now fid token p db = (.ok res, db'))
    (hreq : db.reviewrequests.find? (fun r => r.token == token) = some req)
    (hfresh : ∀ r ∈ db.reviews, (r.id == fid) = false) :
    ∃ rev, res = some rev ∧
      rev.candidate_id = req.candidate_id ∧ rev.job_id = req.job_id := by
  obtain ⟨req', hcheck, hres, -, -, -, -⟩ := submit_review_ok _ _ _ _ _ _ _ h
  obtain ⟨hfind, -, -⟩ := consume_check_ok _ _ _ _ hcheck
  rw [hfind] at hreq
  obtain rfl := Option.some.inj hreq
  have hfound : (db.reviews ++ [mkReview fid req' p]).find? (fun r => r.id == fid)
      = some (mkReview fid req' p) := by
    rw [find?_append_false _ _ _ hfresh]
    simp [List.find?, mkReview]
  exact ⟨mkReview fid req' p, by rw [hres, hfound], rfl, rfl⟩

/-- Witness for C10: the review minted from token `"t"` of `exDB`
references exactly `exReq`'s candidate and job. -/
theorem review_ids_taken_from_request_witness :
    exDB.reviewrequests.find? (fun r => r.token == "t") = some exReq ∧
    (∃ rev, consumedRes = some rev ∧
      rev.candidate_id = exReq.candidate_id ∧ rev.job_id = exReq.job_id) :=
  ⟨by decide,
   review_ids_taken_from_request 100 "r1" "t" okPayload exDB consumedDB consumedRes exReq
     rfl (by decide) (by decide)⟩

/-- C8: `approve_review` on a missing review id fails with 404 and
changes nothing; on an existing review it sets
`approved_by_candidate` to the given boolean, and a second call on the
resulting store sets it to the second boolean — the last write wins,
so repeating the same value is idempotent and any toggle sequence ends
at its final value. -/
theorem approval_last_write_wins (db : DB) (rid : String) (b1 b2 : Bool) (n1 n2 : Nat) :
    (db.reviews.find? (fun r => r.id == rid) = none →
      approve_review n1 rid b1 db = (.error ⟨404, "Review not found"⟩, db)) ∧
    (∀ r0, db.reviews.find? (fun r => r.id == rid) = some r0 →
      (approve_review n1 rid b1 db).1
        = .ok (some { r0 with approved_by_candidate := b1, updated_at := some n1 }) ∧
      (approve_review n2 rid b2 (approve_review n1 rid b1 db).2).1
        = .ok (some { r0 with approved_by_candidate := b2, updated_at := some n2 })) := by
  refine ⟨fun hnone => approve_review_none n1 rid b1 db hnone, fun r0 h0 => ?_⟩
  have hr0 : (r0.id == rid) = true := by
    have hp := List.find?_some h0
    simpa using hp
  have hid : ∀ a : Review,
      (((if a.id == rid then { a with approved_by_candidate := b1, updated_at := some n1 }
         else a) : Review).id == rid) = (a.id == rid) := by
    intro a
    by_cases ha : (a.id == rid) = true <;> simp [ha]
  have h1 : (approve_update n1 rid b1 db).reviews.find? (fun r => r.id == rid)
      = some { r0 with approved_by_candidate := b1, updated_at := some n1 } := by
    unfold approve_update
    dsimp only
    rw [find?_map_invariant
      (fun r : Review =>
        if r.id == rid then { r with approved_by_candidate := b1, updated_at := some n1 }
        else r)
      (fun r : Review => r.id == rid) hid, h0, Option.map_some', if_pos hr0]
  rw [approve_review_found n1 rid b1 db r0 h0]
  dsimp only
  rw [approve_review_found n2 rid b2 (approve_update n1 rid b1 db) _ h1]
  exact ⟨rfl, rfl⟩

/-- Witness for C8: setting approve twice in a row on the stored
review `exReview` succeeds both times and leaves the flag set — the
idempotent repetition from the spec's testable property. -/
theorem approval_last_write_wins_witness :
    exDBrev.reviews.find? (fun r => r.id == "rv1") = some exReview ∧
    (approve_review 1 "rv1" true exDBrev).1
      = .ok (some { exReview with approved_by_candidate := true, updated_at := some 1 }) ∧
    (approve_review 2 "rv1" true (approve_review 1 "rv1" true exDBrev).2).1
      = .ok (some { exReview with approved_by_candidate := true, updated_at := some 2 }) :=
  ⟨by decide,
   ((approval_last_write_wins exDBrev "rv1" true true 1 2).2 exReview (by decide)).1,
   ((approval_last_write_wins exDBrev "rv1" true true 1 2).2 exReview (by decide)).2⟩

/-- C9: an unknown slug yields 404; for a known slug the profile
returns the candidate, all of that candidate's jobs, and exactly the
candidate's reviews with `approved_by_candidate = true` (so never
pending or rejected ones); a returned review whose `job_id` matches no
job of the candidate is joined to the empty job object and stays in
the list rather than failing. -/
theorem profile_shows_exactly_approved_reviews (db : DB) (slug : String) :
    (db.candidates.find? (fun c => c.slug == slug) = none →
      public_profile slug db = .error ⟨404, "Profile not found"⟩) ∧
    (∀ cand, db.candidates.find? (fun c => c.slug == slug) = some cand →
      ∃ prof, public_profile slug db = .ok prof ∧
        prof.candidate = cand ∧
        prof.jobs = db.jobs.filter (fun j => j.candidate_id == cand.id) ∧
        prof.reviews.map (fun pr => pr.review)
          = db.reviews.filter
              (fun r => r.candidate_id == cand.id && r.approved_by_candidate) ∧
        (∀ pr ∈ prof.reviews, pr.review.approved_by_candidate = true) ∧
        (∀ pr ∈ prof.reviews,
          (∀ j ∈ prof.jobs, (j.id == pr.review.job_id) = false) → pr.job = none)) := by
  constructor
  · intro hnone
    unfold public_profile
    split
    · rfl
    · rename_i c heq
      rw [hnone] at heq
      exact Option.noConfusion heq
  · intro cand hc
    have hpub : public_profile slug db = .ok
        { candidate := cand
          jobs := db.jobs.filter (fun j => j.candidate_id == cand.id)
          reviews := (db.reviews.filter
              (fun r => r.candidate_id == cand.id && r.approved_by_candidate)).map
            (fun r => ⟨r, jobs_by_id_get
              (db.jobs.filter (fun j => j.candidate_id == cand.id)) r.job_id⟩) } := by
      unfold public_profile
      split
      · rename_i heq
        rw [hc] at heq
        exact Option.noConfusion heq
      · rename_i c heq
        rw [hc] at heq
        obtain rfl := Option.some.inj heq
        rfl
    refine ⟨_, hpub, rfl, rfl, ?_, ?_, ?_⟩
    · rw [List.map_map]
      exact List.map_id _
    · intro pr hpr
      obtain ⟨r, hrmem, rfl⟩ := List.mem_map.mp hpr
      have hflt : (r.candidate_id == cand.id) = true ∧ r.approved_by_candidate = true := by
        simpa using (List.mem_filter.mp hrmem).2
      exact hflt.2
    · intro pr hpr hnoj
      obtain ⟨r, hrmem, rfl⟩ := List.mem_map.mp hpr
      show jobs_by_id_get _ r.job_id = none
      unfold jobs_by_id_get
      rw [List.find?_eq_none]
      intro j hj
      have hjf := hnoj j (List.mem_reverse.mp hj)
      simp [hjf]

/-- Witness for C9 on `exDBprof`, whose approved review has a dangling
job reference: the profile returns `exCand`, its jobs, and exactly the
approved review, joined to the empty job object. -/
theorem profile_shows_exactly_approved_reviews_witness :
    exDBprof.candidates.find? (fun c => c.slug == "alice") = some exCand ∧
    (∃ prof, public_profile "alice" exDBprof = .ok prof ∧
      prof.candidate = exCand ∧
      prof.jobs = exDBprof.jobs.filter (fun j => j.candidate_id == exCand.id) ∧
      prof.reviews.map (fun pr => pr.review)
        = exDBprof.reviews.filter
            (fun r => r.candidate_id == exCand.id && r.approved_by_candidate) ∧
      (∀ pr ∈ prof.reviews, pr.review.approved_by_candidate = true) ∧
      (∀ pr ∈ prof.reviews,
        (∀ j ∈ prof.jobs, (j.id == pr.review.job_id) = false) → pr.job = none)) :=
  ⟨by decide,
   (profile_shows_exactly_approved_reviews exDBprof "alice").2 exCand (by decide)⟩

end VeriCred
